import Mathlib

/-!
Shallow embedding of the rule-validation engine in
src/src/utils/rule-validator.ts (pix-utils), together with theorems about
its merge lattice, traversal, error capture and observer protocol.

Modelling notes.

* The caller-defined error-code type (TypeScript any) is an opaque type
  parameter α; the context type is an opaque parameter Ctx.
* Rule bodies and guards are modelled as pure functions of the context whose
  codomain records how the call behaves: return a value, return a promise,
  or throw.  The second argument of the TypeScript callbacks (the validator
  itself) is dropped: the engine only passes it through unchanged.
* Await points resume with the resolved value or rethrow the rejection, so an
  awaited promise is embedded as its outcome.  A promise that is not awaited
  is embedded as the promise object itself (GuardOutcome.retPromise), which
  is truthy in a boolean position, exactly as at line 125 of the source.
* Side effects visible to the caller (observer invocations, rule bodies and
  guards being called) are reified as an event trace, in source order.
* validate mutates this.result; the embedding threads the result explicitly
  and returns the updated tree.  A guard that throws makes the returned
  promise reject; that is the Except.error case of the embedding.
-/

namespace PixUtils

/-- The status union of ValidationResult in rule-validator.ts. -/
inductive Status where
  | none
  | notApplicable
  | running
  | pass
  | inconclusive
  | fail
deriving DecidableEq, Repr

/-- ValidationError of rule-validator.ts: a caller-defined errorCode, an
optional message, and an errorName field that the class initialises to the
empty string. -/
structure ValidationError (α : Type) where
  errorCode : α
  message : Option String := Option.none
  errorName : String := ""
deriving DecidableEq, Repr

/-- ValidationResult of rule-validator.ts: a status plus an optional error. -/
structure ValidationResult (α : Type) where
  status : Status
  error : Option (ValidationError α) := Option.none
deriving DecidableEq, Repr

/-- A value thrown by a rule body or a guard: either a structured
ValidationError, or an arbitrary raw value (TypeScript any). -/
inductive Thrown (α : Type) where
  | verr (e : ValidationError α)
  | raw (x : α)
deriving DecidableEq, Repr

/-- Behaviour of one invocation of a rule body on a context: return
undefined, return a result synchronously, return a promise that resolves to
a result, or throw synchronously / reject the returned promise. -/
inductive RuleOutcome (α : Type) where
  | retVoid
  | ret (r : ValidationResult α)
  | retAsync (r : ValidationResult α)
  | throws (e : Thrown α)

/-- Behaviour of one invocation of a guard on a context: a synchronous
boolean, a promise that would later resolve to a boolean, or a synchronous
throw. -/
inductive GuardOutcome (α : Type) where
  | ret (b : Bool)
  | retPromise (b : Bool)
  | throws (e : Thrown α)

/-- RuleDescription of rule-validator.ts.  The guard and rule callbacks are
embedded as functions of the context alone (see the module comment). -/
structure RuleDescription (Ctx α : Type) where
  id : String
  description : Option String := Option.none
  when : Option (Ctx → GuardOutcome α) := Option.none
  rule : Option (Ctx → RuleOutcome α) := Option.none

/-- Externally observable events of one validate call: the guard being
called, the rule body being called, and observer invocations (node id plus
the new result handed to the observer). -/
inductive Event (α : Type) where
  | guardChecked (id : String)
  | ruleExecuted (id : String)
  | observed (id : String) (r : ValidationResult α)
deriving DecidableEq, Repr

mutual
/-- The RuleValidator class: its RuleDescription, its current result field,
and its ordered childValidators.  The parent back-reference of the source is
a non-owning diagnostic link that the evaluation never reads, and is not
represented. -/
inductive RuleValidator (Ctx α : Type) where
  | mk (ruleInfo : RuleDescription Ctx α) (result : ValidationResult α)
      (childValidators : ValidatorList Ctx α)

/-- An ordered list of child validators (insertion order preserved). -/
inductive ValidatorList (Ctx α : Type) where
  | nil
  | cons (head : RuleValidator Ctx α) (tail : ValidatorList Ctx α)
end

variable {Ctx α : Type}

/-- The switch statement of RuleValidator.handleResult (lines 70-94): how an
incoming result merges into the node's current result. -/
def mergeResult (current incoming : ValidationResult α) (isFinal : Bool) :
    ValidationResult α :=
  match incoming.status with
  | .none => incoming
  | .notApplicable => incoming
  | .running => incoming
  | .pass => if isFinal ∧ current.status = .running then incoming else current
  | .inconclusive => if current.status ≠ .fail then incoming else current
  | .fail => if current.status ≠ .fail then incoming else current

/-- RuleValidator.handleResult (lines 63-99): merge the incoming result and,
when the status changed, invoke the observer with (node, new result) — here
reified as an observed event carrying the node id. -/
def handleResult (id : String) (current incoming : ValidationResult α)
    (isFinal : Bool) : ValidationResult α × List (Event α) :=
  let next := mergeResult current incoming isFinal
  (next, if current.status ≠ next.status then [Event.observed id next] else [])

/-- RuleValidator.executeRule (lines 101-120): run the rule body if present;
a returned promise is awaited; a thrown ValidationError is kept as-is, any
other thrown value is wrapped into a new ValidationError with that value as
errorCode and no message; absent a returned value the result defaults to
status pass. -/
def executeRule (info : RuleDescription Ctx α) (context : Ctx) :
    ValidationResult α × List (Event α) :=
  match info.rule with
  | Option.none => ({ status := .pass }, [])
  | Option.some f =>
    let r : ValidationResult α :=
      match f context with
      | .retVoid => { status := .pass }
      | .ret r => r
      | .retAsync r => r
      | .throws e =>
        { status := .fail
          error := Option.some (match e with
            | .verr err => err
            | .raw x => { errorCode := x }) }
    (r, [Event.ruleExecuted info.id])

/-- What the guard check at line 125 decides: execute the node, skip it, or
throw out of validate. -/
inductive GuardStep (α : Type) where
  | exec
  | skip
  | thrown (e : Thrown α)

/-- Line 125: shouldExec is the unawaited value of the guard.  No guard means
execute; a synchronous boolean decides; a returned promise is a truthy object
and means execute regardless of what it would resolve to; a synchronous throw
escapes validate. -/
def evalGuard (info : RuleDescription Ctx α) (context : Ctx) :
    GuardStep α × List (Event α) :=
  match info.when with
  | Option.none => (GuardStep.exec, [])
  | Option.some g =>
    ((match g context with
      | .ret true => GuardStep.exec
      | .ret false => GuardStep.skip
      | .retPromise _ => GuardStep.exec
      | .throws e => GuardStep.thrown e), [Event.guardChecked info.id])

/-- Lines 129-133: merge in running, then, if a rule body is present, execute
it and merge its result non-finalizing.  Starts from the freshly reset result
of line 123. -/
def startAndRule (info : RuleDescription Ctx α) (context : Ctx) :
    ValidationResult α × List (Event α) :=
  let s := handleResult info.id { status := .none } { status := .running } false
  match info.rule with
  | Option.none => s
  | Option.some _ =>
    let e := executeRule info context
    let m := handleResult info.id s.1 e.1 false
    (m.1, s.2 ++ e.2 ++ m.2)

/-- Line 144: if the status is still running after rule body and children,
merge in pass as a finalizing transition. -/
def finalizePass (id : String) (r : ValidationResult α) :
    ValidationResult α × List (Event α) :=
  if r.status = .running then handleResult id r { status := .pass } true
  else (r, [])

/-- Everything validate produces: the settled or rejected promise value, the
updated tree (result fields mutated in place in the source), and the event
trace. -/
structure ValidateOutcome (Ctx α : Type) where
  res : Except (Thrown α) (ValidationResult α)
  node : RuleValidator Ctx α
  events : List (Event α)

/-- Outcome of the child loop of lines 135-142: a rejection from a child if
one occurred, the parent's current result when the loop ended, the updated
children, and the event trace. -/
structure ChildrenOutcome (Ctx α : Type) where
  err : Option (Thrown α)
  current : ValidationResult α
  children : ValidatorList Ctx α
  events : List (Event α)

mutual
/-- RuleValidator.validate (lines 122-150): reset the result to none (no
observer event), evaluate the guard unawaited; on skip merge not-applicable
finalizing; otherwise merge running, run the rule body, walk the children
with the pre-check short-circuit, and finalize running into pass. -/
def validate : RuleValidator Ctx α → Ctx → ValidateOutcome Ctx α
  | .mk info _oldResult children, context =>
    match evalGuard info context with
    | (.thrown e, ev) =>
      { res := Except.error e
        node := .mk info { status := .none } children
        events := ev }
    | (.skip, ev) =>
      let h := handleResult info.id { status := .none }
        { status := .notApplicable } true
      { res := Except.ok h.1
        node := .mk info h.1 children
        events := ev ++ h.2 }
    | (.exec, ev) =>
      let s := startAndRule info context
      let co := validateChildren info.id s.1 children context
      match co.err with
      | Option.some e =>
        { res := Except.error e
          node := .mk info co.current co.children
          events := ev ++ s.2 ++ co.events }
      | Option.none =>
        let f := finalizePass info.id co.current
        { res := Except.ok f.1
          node := .mk info f.1 co.children
          events := ev ++ s.2 ++ co.events ++ f.2 }

/-- The child loop of lines 135-142: before each child, stop if the status is
no longer running; otherwise await the child's validate (a rejection
propagates) and merge the child's result non-finalizing. -/
def validateChildren (id : String) (current : ValidationResult α) :
    ValidatorList Ctx α → Ctx → ChildrenOutcome Ctx α
  | .nil, _ =>
    { err := Option.none, current := current, children := .nil, events := [] }
  | .cons c rest, context =>
    if current.status ≠ .running then
      { err := Option.none, current := current, children := .cons c rest
        events := [] }
    else
      let co := validate c context
      match co.res with
      | Except.error e =>
        { err := Option.some e, current := current
          children := .cons co.node rest, events := co.events }
      | Except.ok cr =>
        let h := handleResult id current cr false
        let ro := validateChildren id h.1 rest context
        { err := ro.err, current := ro.current
          children := .cons co.node ro.children
          events := co.events ++ h.2 ++ ro.events }
end

/-- The resolved value and the events of the executing branch of validate
(lines 127-144), without the guard-call prefix: used to compare a node whose
guard is treated as satisfied with the same node carrying no guard. -/
def execResEvents (info : RuleDescription Ctx α) (cs : ValidatorList Ctx α)
    (context : Ctx) :
    Except (Thrown α) (ValidationResult α) × List (Event α) :=
  let s := startAndRule info context
  let co := validateChildren info.id s.1 cs context
  match co.err with
  | Option.some e => (Except.error e, s.2 ++ co.events)
  | Option.none =>
    let f := finalizePass info.id co.current
    (Except.ok f.1, s.2 ++ co.events ++ f.2)

/-- The node-local half of the no-none-rules condition: the node's rule body,
if present, does not return or resolve to a result with status none on this
context. -/
def ruleStatusOk (info : RuleDescription Ctx α) (context : Ctx) : Bool :=
  match info.rule with
  | Option.none => true
  | Option.some f =>
    match f context with
    | .ret r => match r.status with | Status.none => false | _ => true
    | .retAsync r => match r.status with | Status.none => false | _ => true
    | .retVoid => true
    | .throws _ => true

mutual
/-- No rule body anywhere in the tree returns or resolves to a result with
status none on this context. -/
def noNoneRules : RuleValidator Ctx α → Ctx → Bool
  | .mk info _ cs, context => ruleStatusOk info context && noNoneRulesL cs context

/-- List version of noNoneRules. -/
def noNoneRulesL : ValidatorList Ctx α → Ctx → Bool
  | .nil, _ => true
  | .cons c rest, context => noNoneRules c context && noNoneRulesL rest context
end

/-- The node-local half of the no-throwing-guards condition: this node's
guard, if present, does not throw synchronously on this context. -/
def guardOk (info : RuleDescription Ctx α) (context : Ctx) : Bool :=
  match info.when with
  | Option.none => true
  | Option.some g => match g context with | .throws _ => false | _ => true

mutual
/-- No guard anywhere in the tree throws synchronously on this context. -/
def guardsNoThrow : RuleValidator Ctx α → Ctx → Bool
  | .mk info _ cs, context => guardOk info context && guardsNoThrowL cs context

/-- List version of guardsNoThrow. -/
def guardsNoThrowL : ValidatorList Ctx α → Ctx → Bool
  | .nil, _ => true
  | .cons c rest, context => guardsNoThrow c context && guardsNoThrowL rest context
end

/- Concrete instances used as evaluation inputs (context Unit, error codes
Nat). -/

/-- A node with no guard, no rule body and no children. -/
def leafPass : RuleValidator Unit Nat :=
  .mk { id := "leaf" } { status := .none } .nil

/-- A node whose guard returns a promise that would resolve to false, with
one child whose rule body returns pass. -/
def asyncGuardNode : RuleValidator Unit Nat :=
  .mk { id := "p", when := Option.some fun _ => .retPromise false }
    { status := .none }
    (.cons (.mk { id := "c", rule := Option.some fun _ => .ret { status := .pass } }
      { status := .none } .nil) .nil)

/-- A node whose guard throws the raw value 7 synchronously. -/
def throwGuardNode : RuleValidator Unit Nat :=
  .mk { id := "g", when := Option.some fun _ => .throws (.raw 7) }
    { status := .none } .nil

/-- A node whose rule body returns a result with status none. -/
def noneRuleNode : RuleValidator Unit Nat :=
  .mk { id := "n", rule := Option.some fun _ => .ret { status := .none } }
    { status := .none } .nil

/-- A rule body returning a fail result. -/
def failRule : Unit → RuleOutcome Nat := fun _ => .ret { status := .fail }

/-- A leaf whose rule body returns fail. -/
def failRuleLeaf : RuleValidator Unit Nat :=
  .mk { id := "a", rule := Option.some failRule } { status := .none } .nil

/-- A parent with a child whose rule body throws a raw value: the throw is
caught at the child's node boundary. -/
def containedThrowNode : RuleValidator Unit Nat :=
  .mk { id := "p" } { status := .none }
    (.cons (.mk { id := "c", rule := Option.some fun _ => .throws (.raw 3) }
      { status := .none } .nil) .nil)

/-- A RuleDescription whose guard returns a promise resolving to false and
whose rule body returns pass. -/
def promInfo : RuleDescription Unit Nat :=
  { id := "q"
    when := Option.some fun _ => .retPromise false
    rule := Option.some fun _ => .ret { status := .pass } }

/-- A rule body that throws a structured ValidationError. -/
def throwVErrRule : Unit → RuleOutcome Nat :=
  fun _ => .throws (.verr { errorCode := 5, message := Option.some "boom" })

/-- A RuleDescription whose rule body throws a structured ValidationError. -/
def throwVErrInfo : RuleDescription Unit Nat :=
  { id := "e1", rule := Option.some throwVErrRule }

/-- A rule body that throws the plain value 7. -/
def throwRawRule : Unit → RuleOutcome Nat := fun _ => .throws (.raw 7)

/-- A RuleDescription whose rule body throws the plain value 7. -/
def throwRawInfo : RuleDescription Unit Nat :=
  { id := "e2", rule := Option.some throwRawRule }

/- Helper lemmas. -/

/-- A merge always yields either the current or the incoming result. -/
theorem mergeResult_eq_or (current incoming : ValidationResult α) (isFinal : Bool) :
    mergeResult current incoming isFinal = current ∨
      mergeResult current incoming isFinal = incoming := by
  unfold mergeResult
  rcases h : incoming.status <;> simp only [h] <;>
    first
    | (split_ifs <;> simp)
    | simp

/-- A merge of two results whose statuses are not none has a status that is
not none. -/
theorem mergeResult_status_ne_none {current incoming : ValidationResult α}
    {isFinal : Bool} (hc : current.status ≠ Status.none)
    (hi : incoming.status ≠ Status.none) :
    (mergeResult current incoming isFinal).status ≠ Status.none := by
  rcases mergeResult_eq_or current incoming isFinal with h | h <;> rw [h] <;>
    assumption

/-- A status that is neither none nor running is one of the four terminal
statuses. -/
theorem status_terminal_of_ne {s : Status} (h1 : s ≠ Status.none)
    (h2 : s ≠ Status.running) :
    s = Status.pass ∨ s = Status.inconclusive ∨ s = Status.fail ∨
      s = Status.notApplicable := by
  cases s <;> simp_all

/-- The child loop stops immediately when the current status is not
running: no child is touched and no event is emitted. -/
theorem validateChildren_not_running {cur : ValidationResult α}
    (id : String) (cs : ValidatorList Ctx α) (context : Ctx)
    (h : cur.status ≠ Status.running) :
    validateChildren id cur cs context =
      { err := Option.none, current := cur, children := cs, events := [] } := by
  cases cs with
  | nil => rfl
  | cons c rest => simp [validateChildren, h]

/-- When the node's rule body does not produce a status-none result, neither
does executeRule: the implicit default is pass and a throw produces fail. -/
theorem executeRule_status_ne_none {info : RuleDescription Ctx α} {context : Ctx}
    (h : ruleStatusOk info context = true) :
    (executeRule info context).1.status ≠ Status.none := by
  rcases hr : info.rule with _ | f
  · simp [executeRule, hr]
  · rcases hf : f context with _ | r | r | e
    · simp [executeRule, hr, hf]
    · have hs : r.status ≠ Status.none := by
        rcases hs : r.status <;> simp_all [ruleStatusOk, hr, hf]
      simpa [executeRule, hr, hf] using hs
    · have hs : r.status ≠ Status.none := by
        rcases hs : r.status <;> simp_all [ruleStatusOk, hr, hf]
      simpa [executeRule, hr, hf] using hs
    · simp [executeRule, hr, hf]

/-- When the node's rule body does not produce a status-none result, the
status after the running merge and the rule merge is not none. -/
theorem startAndRule_status_ne_none {info : RuleDescription Ctx α} {context : Ctx}
    (h : ruleStatusOk info context = true) :
    (startAndRule info context).1.status ≠ Status.none := by
  rcases hr : info.rule with _ | f
  · simp [startAndRule, hr, handleResult, mergeResult]
  · simp only [startAndRule, hr, handleResult]
    refine mergeResult_status_ne_none ?_ (executeRule_status_ne_none h)
    simp [mergeResult]

/-- A value validate resolves with never has status running: the final merge
turns running into pass and every other exit keeps a non-running status. -/
theorem validate_ok_status_ne_running (n : RuleValidator Ctx α) (context : Ctx)
    (r : ValidationResult α) (hok : (validate n context).res = Except.ok r) :
    r.status ≠ Status.running := by
  rcases n with ⟨info, old, cs⟩
  unfold validate at hok
  rcases hg : evalGuard info context with ⟨step, ev⟩
  rw [hg] at hok
  cases step with
  | thrown e => simp at hok
  | skip =>
    simp only [handleResult, mergeResult] at hok
    simp at hok
    rw [← hok]
    simp
  | exec =>
    simp only at hok
    rcases he : (validateChildren info.id (startAndRule info context).1 cs
        context).err with _ | e
    · rw [he] at hok
      simp only [finalizePass] at hok
      split at hok
      · simp only [handleResult, mergeResult] at hok
        next hrun =>
          simp [hrun] at hok
          rw [← hok]
          simp
      · next hrun =>
          simp at hok
          rw [← hok]
          exact hrun
    · rw [he] at hok
      simp at hok

/-- When the guard check decides to execute, validate is the executing
branch: execResEvents with the guard-call events prepended. -/
theorem validate_exec_form {info : RuleDescription Ctx α} {context : Ctx}
    {ev : List (Event α)} (r : ValidationResult α) (cs : ValidatorList Ctx α)
    (hexec : evalGuard info context = (GuardStep.exec, ev)) :
    (validate (.mk info r cs) context).res = (execResEvents info cs context).1 ∧
    (validate (.mk info r cs) context).events =
      ev ++ (execResEvents info cs context).2 := by
  unfold validate execResEvents
  rw [hexec]
  rcases he : (validateChildren info.id (startAndRule info context).1 cs
      context).err with _ | e <;> simp [he]

/-- The executing branch reads only the id and the rule of the description:
the guard and description fields are irrelevant to it. -/
theorem execResEvents_when_irrelevant (idf : String) (d d' : Option String)
    (w w' : Option (Ctx → GuardOutcome α)) (rl : Option (Ctx → RuleOutcome α))
    (cs : ValidatorList Ctx α) (context : Ctx) :
    execResEvents ⟨idf, d, w, rl⟩ cs context =
      execResEvents ⟨idf, d', w', rl⟩ cs context := rfl

/-- A guard that does not throw never produces the thrown guard step. -/
theorem evalGuard_not_thrown {info : RuleDescription Ctx α} {context : Ctx}
    (h : guardOk info context = true) (e : Thrown α) :
    (evalGuard info context).1 ≠ GuardStep.thrown e := by
  rcases hw : info.when with _ | g
  · simp [evalGuard, hw]
  · rcases hgo : g context with b | b | e'
    · cases b <;> simp [evalGuard, hw, hgo]
    · simp [evalGuard, hw, hgo]
    · simp_all [guardOk, hw, hgo]

mutual
/-- When no guard in the tree throws on this context, validate settles: its
promise resolves with some result, whatever the rule bodies do. -/
theorem validate_guards_resolve (n : RuleValidator Ctx α) (context : Ctx)
    (h : guardsNoThrow n context = true) :
    ∃ r, (validate n context).res = Except.ok r := by
  rcases n with ⟨info, old, cs⟩
  have hg : guardOk info context = true := by
    simp [guardsNoThrow] at h; exact h.1
  have hl : guardsNoThrowL cs context = true := by
    simp [guardsNoThrow] at h; exact h.2
  unfold validate
  rcases hgg : evalGuard info context with ⟨step, ev⟩
  cases step with
  | thrown e =>
    exact absurd (by rw [hgg]) (evalGuard_not_thrown hg e)
  | skip => simp [hgg]
  | exec =>
    have herr : (validateChildren info.id (startAndRule info context).1 cs
        context).err = Option.none :=
      validateChildren_guards_resolve cs context hl info.id _
    simp [hgg, herr]

/-- When no guard of the children throws on this context, the child loop
never records a rejection. -/
theorem validateChildren_guards_resolve (cs : ValidatorList Ctx α)
    (context : Ctx) (h : guardsNoThrowL cs context = true) (id : String)
    (cur : ValidationResult α) :
    (validateChildren id cur cs context).err = Option.none := by
  cases cs with
  | nil => rfl
  | cons c rest =>
    have hc : guardsNoThrow c context = true := by
      simp [guardsNoThrowL] at h; exact h.1
    have hr : guardsNoThrowL rest context = true := by
      simp [guardsNoThrowL] at h; exact h.2
    unfold validateChildren
    by_cases hcond : cur.status ≠ Status.running
    · simp only [if_pos hcond]
    · rw [if_neg hcond]
      obtain ⟨r, hok⟩ := validate_guards_resolve c context hc
      simp only [hok]
      have := validateChildren_guards_resolve rest context hr id
        (handleResult id cur r false).1
      simpa using this
end

mutual
/-- When no rule body in the tree returns a status-none result on this
context, every value validate resolves with has one of the four terminal
statuses. -/
theorem validate_noNone_terminal (n : RuleValidator Ctx α) (context : Ctx)
    (h : noNoneRules n context = true) (r : ValidationResult α)
    (hok : (validate n context).res = Except.ok r) :
    r.status = Status.pass ∨ r.status = Status.inconclusive ∨
      r.status = Status.fail ∨ r.status = Status.notApplicable := by
  have hrun : r.status ≠ Status.running :=
    validate_ok_status_ne_running n context r hok
  refine status_terminal_of_ne ?_ hrun
  rcases n with ⟨info, old, cs⟩
  have h1 : ruleStatusOk info context = true := by
    simp [noNoneRules] at h; exact h.1
  have h2 : noNoneRulesL cs context = true := by
    simp [noNoneRules] at h; exact h.2
  unfold validate at hok
  rcases hgg : evalGuard info context with ⟨step, ev⟩
  rw [hgg] at hok
  cases step with
  | thrown e => simp at hok
  | skip =>
    simp only [handleResult, mergeResult] at hok
    simp at hok
    rw [← hok]
    simp
  | exec =>
    simp only at hok
    rcases he : (validateChildren info.id (startAndRule info context).1 cs
        context).err with _ | e
    · rw [he] at hok
      have hcur : (validateChildren info.id (startAndRule info context).1 cs
          context).current.status ≠ Status.none :=
        validateChildren_noNone cs context h2 info.id _
          (startAndRule_status_ne_none h1)
      simp only [finalizePass] at hok
      split at hok
      · next hrun2 =>
          simp only [handleResult, mergeResult] at hok
          simp [hrun2] at hok
          rw [← hok]
          simp
      · next hrun2 =>
          simp at hok
          rw [← hok]
          exact hcur
    · rw [he] at hok
      simp at hok

/-- When no rule body of the children returns a status-none result, the
child loop keeps the parent's status away from none. -/
theorem validateChildren_noNone (cs : ValidatorList Ctx α) (context : Ctx)
    (h : noNoneRulesL cs context = true) (id : String)
    (cur : ValidationResult α) (hcur : cur.status ≠ Status.none) :
    (validateChildren id cur cs context).current.status ≠ Status.none := by
  cases cs with
  | nil => simpa [validateChildren] using hcur
  | cons c rest =>
    have hc : noNoneRules c context = true := by
      simp [noNoneRulesL] at h; exact h.1
    have hr : noNoneRulesL rest context = true := by
      simp [noNoneRulesL] at h; exact h.2
    unfold validateChildren
    by_cases hcond : cur.status ≠ Status.running
    · simp only [if_pos hcond]
      exact hcur
    · rw [if_neg hcond]
      rcases hv : (validate c context).res with e | cr
      · simp only [hv]
        exact hcur
      · simp only [hv]
        have hcr : cr.status ≠ Status.none := by
          rcases validate_noNone_terminal c context hc cr hv with h' | h' | h' | h' <;>
            simp [h']
        have hnext : (handleResult id cur cr false).1.status ≠ Status.none :=
          mergeResult_status_ne_none hcur hcr
        have := validateChildren_noNone rest context hr id
          (handleResult id cur cr false).1 hnext
        simpa using this
end

/- Claim theorems. -/

/-- C1: the claim says that a node whose guard evaluates false — synchronous
or asynchronous — validates to not-applicable with neither its rule body nor
any child executed.  The code never awaits the guard (line 125), so a node
whose guard returns a promise resolving to false resolves pass and its
child's rule body does run: this theorem evaluates the code at that failing
input. -/
theorem claim_C1_async_guard_divergence :
    (validate asyncGuardNode ()).res = Except.ok { status := .pass } ∧
    Event.ruleExecuted "c" ∈ (validate asyncGuardNode ()).events :=
  ⟨rfl, by decide⟩

/-- C2: an incoming result with status none, not-applicable or running
unconditionally overwrites the node's result, whatever the current status;
an incoming pass overwrites exactly when the merge is finalizing and the
current status is running, and otherwise — in particular whenever the merge
is non-finalizing — leaves the current result unchanged. -/
theorem claim_C2_merge_overwrite (id : String) (cur : ValidationResult α)
    (e : Option (ValidationError α)) (isFinal : Bool) :
    (handleResult id cur { status := .none, error := e } isFinal).1 =
      { status := .none, error := e } ∧
    (handleResult id cur { status := .notApplicable, error := e } isFinal).1 =
      { status := .notApplicable, error := e } ∧
    (handleResult id cur { status := .running, error := e } isFinal).1 =
      { status := .running, error := e } ∧
    (handleResult id cur { status := .pass, error := e } isFinal).1 =
      (if isFinal ∧ cur.status = Status.running
       then { status := .pass, error := e } else cur) := by
  refine ⟨?_, ?_, ?_, ?_⟩ <;> simp [handleResult, mergeResult]

/-- C3: an incoming inconclusive result overwrites the node's result unless
the current status is fail, and an incoming fail overwrites unless the
current status is already fail, in which case the current result — error
included — is kept unchanged. -/
theorem claim_C3_sticky_fail (id : String) (cur : ValidationResult α)
    (e : Option (ValidationError α)) (isFinal : Bool) :
    (handleResult id cur { status := .inconclusive, error := e } isFinal).1 =
      (if cur.status ≠ Status.fail
       then { status := .inconclusive, error := e } else cur) ∧
    (handleResult id cur { status := .fail, error := e } isFinal).1 =
      (if cur.status ≠ Status.fail
       then { status := .fail, error := e } else cur) := by
  constructor <;> simp [handleResult, mergeResult]

/-- C4: for a parent with children A, B, C in insertion order whose child A
validates to a fail result, B and C are never validated (the parent's whole
outcome — result, updated tree and event trace — shows only A's execution)
and the parent resolves with that fail result; in general the child loop
checks the parent's status before each child and stops as soon as it is not
running, touching no further child and emitting no further event. -/
theorem claim_C4_short_circuit :
    (∀ (id : String) (d : Option String) (r ra : ValidationResult α)
      (A A2 B C : RuleValidator Ctx α) (evA : List (Event α)) (context : Ctx),
      validate A context = { res := Except.ok ra, node := A2, events := evA } →
      ra.status = Status.fail →
      validate (.mk { id := id, description := d } r
          (.cons A (.cons B (.cons C .nil)))) context =
        { res := Except.ok ra
          node := .mk { id := id, description := d } ra
            (.cons A2 (.cons B (.cons C .nil)))
          events := Event.observed id { status := .running } ::
            (evA ++ [Event.observed id ra]) }) ∧
    (∀ (id : String) (cur : ValidationResult α) (cs : ValidatorList Ctx α)
      (context : Ctx), cur.status ≠ Status.running →
      validateChildren id cur cs context =
        { err := Option.none, current := cur, children := cs, events := [] }) := by
  constructor
  · intro id d r ra A A2 B C evA context hA hfail
    have hstop : validateChildren id ra (.cons B (.cons C .nil)) context =
        { err := Option.none, current := ra, children := .cons B (.cons C .nil)
          events := [] } :=
      validateChildren_not_running id _ context (by simp [hfail])
    simp [validate, validateChildren, evalGuard, startAndRule, finalizePass,
      handleResult, mergeResult, hA, hfail, hstop]
  · intro id cur cs context h
    exact validateChildren_not_running id cs context h

/-- C4 witness: claim_C4_short_circuit applied to a parent whose first child
fails by its rule body and whose second and third children are plain
leaves: only the first child's events appear and the parent fails. -/
theorem claim_C4_witness :
    validate failRuleLeaf () =
      { res := Except.ok { status := .fail }
        node := RuleValidator.mk { id := "a", rule := Option.some failRule }
          { status := .fail } .nil
        events := [Event.observed "a" { status := .running },
          Event.ruleExecuted "a", Event.observed "a" { status := .fail }] } ∧
    ({ status := Status.fail } : ValidationResult Nat).status = Status.fail ∧
    validate (RuleValidator.mk { id := "p" }
        ({ status := .none } : ValidationResult Nat)
        (.cons failRuleLeaf (.cons leafPass (.cons leafPass .nil)))) () =
      { res := Except.ok { status := .fail }
        node := RuleValidator.mk { id := "p" } { status := .fail }
          (.cons (RuleValidator.mk { id := "a", rule := Option.some failRule }
              { status := .fail } .nil)
            (.cons leafPass (.cons leafPass .nil)))
        events := Event.observed "p" { status := .running } ::
          ([Event.observed "a" { status := .running }, Event.ruleExecuted "a",
            Event.observed "a" { status := .fail }] ++
            [Event.observed "p" { status := .fail }]) } := by
  refine ⟨rfl, rfl, ?_⟩
  exact claim_C4_short_circuit.1 "p" Option.none { status := .none }
    { status := .fail } failRuleLeaf _ leafPass leafPass _ () rfl rfl

/-- C5: a rule body that throws a structured ValidationError makes the
node's merged-in result fail with exactly that error attached unchanged; a
rule body that throws any other value x makes it fail with a fresh
ValidationError whose code is x and which has no message. -/
theorem claim_C5_error_capture (info : RuleDescription Ctx α)
    (f : Ctx → RuleOutcome α) (context : Ctx)
    (hrule : info.rule = Option.some f) :
    (∀ e : ValidationError α, f context = .throws (.verr e) →
      executeRule info context =
        ({ status := .fail, error := Option.some e },
         [Event.ruleExecuted info.id])) ∧
    (∀ x : α, f context = .throws (.raw x) →
      executeRule info context =
        ({ status := .fail
           error := Option.some
             { errorCode := x, message := Option.none, errorName := "" } },
         [Event.ruleExecuted info.id])) := by
  constructor
  · intro e he
    simp [executeRule, hrule, he]
  · intro x hx
    simp [executeRule, hrule, hx]

/-- C5 witness: claim_C5_error_capture applied to concrete rule bodies
throwing a structured error and a raw value. -/
theorem claim_C5_witness :
    throwVErrInfo.rule = Option.some throwVErrRule ∧
    throwVErrRule () =
      .throws (.verr { errorCode := 5, message := Option.some "boom" }) ∧
    throwRawInfo.rule = Option.some throwRawRule ∧
    throwRawRule () = .throws (.raw 7) ∧
    executeRule throwVErrInfo () =
      ({ status := .fail
         error := Option.some
           { errorCode := 5, message := Option.some "boom", errorName := "" } },
       [Event.ruleExecuted "e1"]) ∧
    executeRule throwRawInfo () =
      ({ status := .fail
         error := Option.some
           { errorCode := 7, message := Option.none, errorName := "" } },
       [Event.ruleExecuted "e2"]) :=
  ⟨rfl, rfl, rfl, rfl,
    (claim_C5_error_capture throwVErrInfo throwVErrRule () rfl).1 _ rfl,
    (claim_C5_error_capture throwRawInfo throwRawRule () rfl).2 7 rfl⟩

/-- C6 counterexample: the claim says validate never propagates a thrown
error, guard failures included.  A node whose guard throws the raw value 7
makes the promise returned by validate reject with exactly that value. -/
theorem claim_C6_cex_guard_throw :
    (validate throwGuardNode ()).res = Except.error (Thrown.raw 7) := rfl

/-- C6 amended: every failure raised by a rule body is contained inside
validate and surfaced only as a Result value; only a guard that throws
escapes.  Whenever no guard in the tree throws on the given context, the
promise resolves — whatever the rule bodies do, including throwing. -/
theorem claim_C6_amended_contained (n : RuleValidator Ctx α) (context : Ctx)
    (h : guardsNoThrow n context = true) :
    ∃ r, (validate n context).res = Except.ok r :=
  validate_guards_resolve n context h

/-- C6 witness: claim_C6_amended_contained applied to a tree whose child
rule body throws; validate still resolves. -/
theorem claim_C6_witness :
    guardsNoThrow containedThrowNode () = true ∧
    ∃ r, (validate containedThrowNode ()).res = Except.ok r :=
  ⟨rfl, claim_C6_amended_contained containedThrowNode () rfl⟩

/-- C7: a node with no guard, no rule body and no children validates to
pass; and a merge can change a node's status to pass only when the incoming
status is pass, the merge is finalizing and the current status is running —
the end-of-traversal finalizing merge is the only way a result becomes
pass. -/
theorem claim_C7_pass_only_final :
    (∀ (id : String) (d : Option String) (r : ValidationResult α)
      (context : Ctx),
      (validate (.mk { id := id, description := d } r .nil) context).res =
        Except.ok { status := .pass }) ∧
    (∀ (id : String) (cur inc : ValidationResult α) (isFinal : Bool),
      cur.status ≠ Status.pass →
      (handleResult id cur inc isFinal).1.status = Status.pass →
      inc.status = Status.pass ∧ isFinal = true ∧
        cur.status = Status.running) := by
  constructor
  · intro id d r context
    rfl
  · intro id cur inc isFinal hne hp
    rcases hi : inc.status
    · simp [handleResult, mergeResult, hi] at hp
    · simp [handleResult, mergeResult, hi] at hp
    · simp [handleResult, mergeResult, hi] at hp
    · simp only [handleResult, mergeResult, hi] at hp
      split_ifs at hp with hcond
      · exact ⟨rfl, hcond.1, hcond.2⟩
      · exact absurd hp hne
    · simp only [handleResult, mergeResult, hi] at hp
      split_ifs at hp with hcond
      · simp [hi] at hp
      · exact absurd hp hne
    · simp only [handleResult, mergeResult, hi] at hp
      split_ifs at hp with hcond
      · simp [hi] at hp
      · exact absurd hp hne

/-- C7 witness: claim_C7_pass_only_final applied to a concrete leaf and to
the finalizing merge of pass into a running result. -/
theorem claim_C7_witness :
    (validate (RuleValidator.mk { id := "w" } { status := .none } .nil :
        RuleValidator Unit Nat) ()).res =
      Except.ok { status := .pass } ∧
    ({ status := Status.running } : ValidationResult Nat).status ≠ Status.pass ∧
    (handleResult "w" ({ status := Status.running } : ValidationResult Nat)
        { status := Status.pass } true).1.status = Status.pass ∧
    (({ status := Status.pass } : ValidationResult Nat).status = Status.pass ∧
      true = true ∧
      ({ status := Status.running } : ValidationResult Nat).status =
        Status.running) :=
  ⟨(@claim_C7_pass_only_final Unit Nat).1 "w" Option.none
      { status := .none } (),
   by decide, by decide,
   (@claim_C7_pass_only_final Unit Nat).2 "w"
      { status := Status.running } { status := Status.pass } true
      (by decide) (by decide)⟩

/-- C8: on every merge the observer fires with the node and its new result
exactly when the status changed, and never when it is unchanged; and the
whole outcome of validate — resolved value, updated tree and event trace —
is independent of the node's stored pre-call result, because the reset to
status none at the start of validate is silent. -/
theorem claim_C8_observer_protocol :
    (∀ (id : String) (cur inc : ValidationResult α) (isFinal : Bool),
      (handleResult id cur inc isFinal).2 =
        if cur.status ≠ (handleResult id cur inc isFinal).1.status
        then [Event.observed id (handleResult id cur inc isFinal).1]
        else []) ∧
    (∀ (info : RuleDescription Ctx α) (r r' : ValidationResult α)
      (cs : ValidatorList Ctx α) (context : Ctx),
      validate (.mk info r cs) context = validate (.mk info r' cs) context) := by
  constructor
  · intro id cur inc isFinal
    simp [handleResult]
  · intro info r r' cs context
    rfl

/-- C9 counterexample: the claim says a node never ends evaluation in status
none or running for arbitrary rule bodies.  A node whose rule body returns a
result with status none resolves with status none. -/
theorem claim_C9_cex_none_result :
    (validate noneRuleNode ()).res = Except.ok { status := Status.none } := rfl

/-- C9 amended: a resolved validate never has status running; and whenever
no rule body in the tree returns or resolves to a status-none result on the
given context, the resolved status is one of pass, inconclusive, fail,
not-applicable. -/
theorem claim_C9_amended_terminal :
    (∀ (n : RuleValidator Ctx α) (context : Ctx) (r : ValidationResult α),
      (validate n context).res = Except.ok r → r.status ≠ Status.running) ∧
    (∀ (n : RuleValidator Ctx α) (context : Ctx) (r : ValidationResult α),
      noNoneRules n context = true →
      (validate n context).res = Except.ok r →
      r.status = Status.pass ∨ r.status = Status.inconclusive ∨
        r.status = Status.fail ∨ r.status = Status.notApplicable) :=
  ⟨fun n context r hok => validate_ok_status_ne_running n context r hok,
   fun n context r h hok => validate_noNone_terminal n context h r hok⟩

/-- C9 witness: claim_C9_amended_terminal applied to the plain leaf, which
resolves pass. -/
theorem claim_C9_witness :
    (validate leafPass ()).res = Except.ok { status := Status.pass } ∧
    noNoneRules leafPass () = true ∧
    (({ status := Status.pass } : ValidationResult Nat).status = Status.pass ∨
      ({ status := Status.pass } : ValidationResult Nat).status =
        Status.inconclusive ∨
      ({ status := Status.pass } : ValidationResult Nat).status = Status.fail ∨
      ({ status := Status.pass } : ValidationResult Nat).status =
        Status.notApplicable) :=
  ⟨rfl, rfl,
   claim_C9_amended_terminal.2 leafPass () { status := Status.pass } rfl rfl⟩

/-- C10: a guard that returns a promise is treated as satisfied without
being awaited, whatever boolean it would resolve to: the node behaves
exactly like the same node with no guard at all — same resolved value, with
only the guard-call event prepended to the trace. -/
theorem claim_C10_promise_guard (info info' : RuleDescription Ctx α)
    (g : Ctx → GuardOutcome α) (b : Bool) (r : ValidationResult α)
    (cs : ValidatorList Ctx α) (context : Ctx)
    (hwhen : info.when = Option.some g)
    (hp : g context = GuardOutcome.retPromise b)
    (hid : info'.id = info.id) (hrule : info'.rule = info.rule)
    (hwhen' : info'.when = Option.none) :
    (validate (.mk info r cs) context).res =
      (validate (.mk info' r cs) context).res ∧
    (validate (.mk info r cs) context).events =
      Event.guardChecked info.id ::
        (validate (.mk info' r cs) context).events := by
  rcases info with ⟨idf, d, w, rl⟩
  rcases info' with ⟨idf', d', w', rl'⟩
  simp only at hwhen hid hrule hwhen'
  subst hwhen
  subst hid
  subst hrule
  subst hwhen'
  have hg1 : evalGuard (⟨idf', d, Option.some g, rl'⟩ : RuleDescription Ctx α)
      context = (GuardStep.exec, [Event.guardChecked idf']) := by
    simp [evalGuard, hp]
  have hg2 : evalGuard (⟨idf', d', Option.none, rl'⟩ : RuleDescription Ctx α)
      context = (GuardStep.exec, []) := rfl
  have h1 := validate_exec_form r cs hg1
  have h2 := validate_exec_form r cs hg2
  have hsame := execResEvents_when_irrelevant idf' d d' (Option.some g)
    Option.none rl' cs context
  refine ⟨?_, ?_⟩
  · rw [h1.1, h2.1, hsame]
  · rw [h1.2, h2.2, hsame]
    rfl

/-- C10 witness: claim_C10_promise_guard applied to a concrete node whose
guard returns a promise resolving to false. -/
theorem claim_C10_witness :
    promInfo.when = Option.some (fun _ => .retPromise false) ∧
    (validate (RuleValidator.mk promInfo { status := .none } .nil) ()).res =
      (validate (RuleValidator.mk { promInfo with when := Option.none }
        { status := .none } .nil) ()).res ∧
    (validate (RuleValidator.mk promInfo { status := .none } .nil) ()).events =
      Event.guardChecked promInfo.id ::
        (validate (RuleValidator.mk { promInfo with when := Option.none }
          { status := .none } .nil) ()).events :=
  ⟨rfl,
   (claim_C10_promise_guard promInfo { promInfo with when := Option.none }
      _ false { status := .none } .nil () rfl rfl rfl rfl rfl).1,
   (claim_C10_promise_guard promInfo { promInfo with when := Option.none }
      _ false { status := .none } .nil () rfl rfl rfl rfl rfl).2⟩

end PixUtils
